import Mathlib

/- Verification development for the gig-chat relay server.  The JavaScript
   source (server.js and the server drafts embedded in models/User.js) is
   shallowly embedded below: pure Lean functions model connection admission,
   the active-connection registry, inbound-message validation, the two
   deduplication strategies (time-windowed content match and messageId key
   match) and the fan-out broadcast.  The persistent message store is treated
   as an opaque append/query service, modelled as a Lean list; profile
   enrichment is external and the broadcast payload is modelled as the stored
   record itself. -/

namespace Chat

/-- True for an ASCII hexadecimal digit, as in the store identifier format. -/
def hexDigit (c : Char) : Bool :=
  ('0' ≤ c && c ≤ '9') || ('a' ≤ c && c ≤ 'f') || ('A' ≤ c && c ≤ 'F')

/-- mongoose Types.ObjectId.isValid on a string: a 12-character string or a
24-character hexadecimal string. -/
def isValidObjectId (s : String) : Bool :=
  s.length == 12 || (s.length == 24 && s.data.all hexDigit)

/-- JavaScript truthiness of an optional string field: present and nonempty. -/
def truthyStr : Option String → Bool
  | some s => !(s == "")
  | none => false

/-- JavaScript truthiness of an optional numeric field: present and nonzero. -/
def truthyInt : Option Int → Bool
  | some n => !(n == 0)
  | none => false

/-- The query parameters bound to a connection at admission
(ws.query = gigId, sellerId, userId). -/
structure Query where
  gigId : String
  sellerId : String
  userId : String
deriving DecidableEq

/-- A socket client as seen by the broadcast loop over wss.clients:
its readyState and the query captured at admission (absent if the
connection was never admitted). -/
structure Client where
  readyState : Nat
  query : Option Query
deriving DecidableEq

/-- WebSocket.OPEN. -/
def wsOPEN : Nat := 1

/-- The broadcast filter from the source: the client is open, has a bound
query, its gigId equals the sending connection admission gigId, and its
userId is the admission sellerId or the admission userId. -/
def inAudience (gigId sellerId userId : String) (c : Client) : Bool :=
  c.readyState == wsOPEN &&
    match c.query with
    | some q => q.gigId == gigId && (q.userId == sellerId || q.userId == userId)
    | none => false

/-- The audience of a broadcast: every client of wss.clients passing the
broadcast filter for the sending connection admission parameters. -/
def audience (clients : List Client) (q : Query) : List Client :=
  clients.filter (inAudience q.gigId q.sellerId q.userId)

/-- Wire-level inbound message payload; every field arrives optional. -/
structure InboundMessage where
  gigId : Option String
  senderId : Option String
  text : Option String
  recipientId : Option String
  timestamp : Option Int
  messageId : Option String
deriving DecidableEq

/-- A persisted message record (senderId is stored as userId). -/
structure StoredMessage where
  gigId : String
  userId : String
  recipientId : Option String
  text : String
  timestamp : Int
  read : Bool
  messageId : Option String
deriving DecidableEq

/-- Message format validation: gigId, senderId and text must be truthy. -/
def hasRequiredFields (m : InboundMessage) : Bool :=
  truthyStr m.gigId && truthyStr m.senderId && truthyStr m.text

/-- Message identifier validation: gigId and senderId must be valid
ObjectIds, and recipientId, when truthy, must be a valid ObjectId. -/
def hasValidIds (m : InboundMessage) : Bool :=
  isValidObjectId (m.gigId.getD "") && isValidObjectId (m.senderId.getD "") &&
    !(truthyStr m.recipientId && !isValidObjectId (m.recipientId.getD ""))

/-- A payload written back to a socket: a JSON error object with a single
error field, or a serialized (enriched) stored message. -/
inductive OutPayload where
  | errJson (reason : String)
  | msgJson (m : StoredMessage)
deriving DecidableEq

/-- The observable outcome of one inbound-message event: the resulting
store, the reply sent to the originating connection (if any), the payload
broadcast to the audience (if any), the audience it was delivered to, and
whether the handler closed the originating connection (it never does). -/
structure Outcome where
  store : List StoredMessage
  reply : Option OutPayload
  broadcastPayload : Option StoredMessage
  recipients : List Client
  closeSelf : Option (Nat × String)
deriving DecidableEq

/-- The stored record built by Message.create from an accepted inbound
message: a falsy recipientId is stored as null. -/
def mkStored (m : InboundMessage) (ts : Int) (mid : Option String) : StoredMessage :=
  { gigId := m.gigId.getD ""
    userId := m.senderId.getD ""
    recipientId := if truthyStr m.recipientId then m.recipientId else none
    text := m.text.getD ""
    timestamp := ts
    read := false
    messageId := mid }

/-- Message handler of the ESM server variant (no deduplication): validate
format, validate identifiers, persist with timestamp (client timestamp when
truthy, otherwise Date.now), then broadcast the enriched record to the
audience of the admission query. -/
def processMessageESM (now : Int) (clients : List Client) (connQ : Query)
    (store : List StoredMessage) (m : InboundMessage) : Outcome :=
  if !hasRequiredFields m then
    ⟨store, some (.errJson "Invalid message format"), none, [], none⟩
  else if !hasValidIds m then
    ⟨store, some (.errJson "Invalid message IDs"), none, [], none⟩
  else
    let ts := if truthyInt m.timestamp then m.timestamp.getD 0 else now
    let s := mkStored m ts none
    ⟨store ++ [s], none, some s, audience clients connQ, none⟩

/-- The windowed duplicate test from the source query: a stored message with
the same gigId, same userId (sender), same text, and a timestamp at or after
the inbound timestamp minus 5000 ms. -/
def matchesDupWindow (m : InboundMessage) (ts : Int) (s : StoredMessage) : Bool :=
  s.gigId == m.gigId.getD "" && s.userId == m.senderId.getD "" &&
    s.text == m.text.getD "" && decide (ts - 5000 ≤ s.timestamp)

/-- Message handler of the windowed-dedup server variant: validate, then
reject as duplicate when the windowed query finds a match, else persist with
exactly the client timestamp and broadcast.  A message without a timestamp
makes the window bound an invalid date; the store query throws a cast error
which the handler catches, replying with a generic server error and
persisting nothing. -/
def processMessageWindowed (clients : List Client) (connQ : Query)
    (store : List StoredMessage) (m : InboundMessage) : Outcome :=
  if !hasRequiredFields m then
    ⟨store, some (.errJson "Invalid message format"), none, [], none⟩
  else if !hasValidIds m then
    ⟨store, some (.errJson "Invalid message IDs"), none, [], none⟩
  else
    match m.timestamp with
    | none => ⟨store, some (.errJson "Server error"), none, [], none⟩
    | some ts =>
      if store.any (matchesDupWindow m ts) then
        ⟨store, some (.errJson "Duplicate message detected"), none, [], none⟩
      else
        let s := mkStored m ts none
        ⟨store ++ [s], none, some s, audience clients connQ, none⟩

/-- The dedup key of the messageId-keyed variant: the client messageId when
truthy, else the senderId and the client timestamp (Date.now when falsy)
joined by a colon.  The text takes no part in the key. -/
def mkMessageId (now : Int) (m : InboundMessage) : String :=
  if truthyStr m.messageId then m.messageId.getD ""
  else
    (m.senderId.getD "") ++ ":" ++
      toString (if truthyInt m.timestamp then m.timestamp.getD 0 else now)

/-- Message handler of the messageId-keyed variant (models/User.js draft):
validate, build the dedup key, silently drop the message when a stored
record already carries that key (no reply, no persistence, no broadcast),
else persist the record with the key and broadcast. -/
def processMessageKeyed (now : Int) (clients : List Client) (connQ : Query)
    (store : List StoredMessage) (m : InboundMessage) : Outcome :=
  if !hasRequiredFields m then
    ⟨store,
      some (.errJson "Invalid message format: Missing gigId, senderId, or text"),
      none, [], none⟩
  else if !hasValidIds m then
    ⟨store, some (.errJson "Invalid message IDs"), none, [], none⟩
  else
    let mid := mkMessageId now m
    if store.any (fun s => s.messageId == some mid) then
      ⟨store, none, none, [], none⟩
    else
      let ts := if truthyInt m.timestamp then m.timestamp.getD 0 else now
      let s := mkStored m ts (some mid)
      ⟨store ++ [s], none, some s, audience clients connQ, none⟩

example : isValidObjectId "aaaaaaaaaaaaaaaaaaaaaaaa" = true := by decide
example : isValidObjectId "zzz" = false := by decide
example : isValidObjectId "twelve-chars" = true := by decide

/-- A registered connection: its socket identity and the query bound at
admission. -/
abbrev RegConn := Nat × Query

/-- A user bucket: the Set of sockets held for one userId. -/
abbrev Bucket := List RegConn

/-- The activeConnections registry: a Map from userId to its bucket. -/
abbrev Registry := List (String × Bucket)

/-- Map.get: the first bucket stored under the given userId. -/
def Registry.findBucket : Registry → String → Option Bucket
  | [], _ => none
  | (u, b) :: rest, uid => if u = uid then some b else Registry.findBucket rest uid

/-- Map.set: replace the bucket stored under the given userId, adding the
entry when absent. -/
def Registry.setBucket : Registry → String → Bucket → Registry
  | [], uid, b => [(uid, b)]
  | (u, b0) :: rest, uid, b =>
    if u = uid then (uid, b) :: rest else (u, b0) :: Registry.setBucket rest uid b

/-- Map.delete: drop the entry stored under the given userId. -/
def Registry.eraseKey : Registry → String → Registry
  | [], _ => []
  | (u, b) :: rest, uid =>
    if u = uid then rest else (u, b) :: Registry.eraseKey rest uid

/-- The keys of the registry map. -/
def bucketKeys (r : Registry) : List String := r.map Prod.fst

/-- All connections registered in any bucket. -/
def Registry.allConns : Registry → List RegConn
  | [] => []
  | (_, b) :: rest => b ++ Registry.allConns rest

/-- Registration of a freshly validated connection, from the source: ensure
a bucket exists for the userId, add the socket, and when the bucket then
holds more than one socket, close (code 1008, reason Duplicate connection)
and delete every other socket of the bucket whose admission gigId equals the
new connection gigId.  Returns the new registry and the identities of the
superseded sockets, which each observe a close event. -/
def registerConn (r : Registry) (uid : String) (q : Query) (cid : Nat) :
    Registry × List Nat :=
  let b0 := (Registry.findBucket r uid).getD []
  let b1 := b0 ++ [(cid, q)]
  if b1.length > 1 then
    let survivors := b1.filter (fun c => c.1 == cid || c.2.gigId != q.gigId)
    let closed := (b1.filter (fun c => !(c.1 == cid) && c.2.gigId == q.gigId)).map Prod.fst
    (Registry.setBucket r uid survivors, closed)
  else
    (Registry.setBucket r uid b1, [])

/-- The close handler from the source: delete the socket from its user
bucket, and when that bucket becomes empty, delete the userId entry itself
from the registry. -/
def removeConn (r : Registry) (uid : String) (cid : Nat) : Registry :=
  match Registry.findBucket r uid with
  | none => r
  | some b =>
    let b1 := b.filter (fun c => !(c.1 == cid))
    if b1.isEmpty then Registry.eraseKey r uid else Registry.setBucket r uid b1

/-- Modelled from the spec: the source broadcasts by iterating every live
socket client rather than querying the registry, so the registry-indexed
matching operation of the spec (section 4.2) has no direct counterpart in
src.  Per the spec it returns every registered connection whose bound key
gigId equals the key gigId and whose own userId equals either the key
sellerId or the key userId. -/
def matching (r : Registry) (key : Query) : List RegConn :=
  (Registry.allConns r).filter
    (fun c =>
      c.2.gigId == key.gigId && (c.2.userId == key.sellerId || c.2.userId == key.userId))

/-- At most one connection per (userId, gigId) pair: in every bucket, each
gigId occurs on at most one connection. -/
def atMostOnePerPair (r : Registry) : Prop :=
  ∀ p ∈ r, ∀ gig : String, ((p.2.filter (fun c => c.2.gigId == gig)).length ≤ 1)

/-- The raw connection-establishment query parameters, each possibly absent. -/
structure ConnParams where
  gigId : Option String
  sellerId : Option String
  userId : Option String
deriving DecidableEq

/-- All three establishment parameters are truthy. -/
def paramsPresent (p : ConnParams) : Bool :=
  truthyStr p.gigId && truthyStr p.sellerId && truthyStr p.userId

/-- All three establishment parameters are valid ObjectIds. -/
def paramsValid (p : ConnParams) : Bool :=
  isValidObjectId (p.gigId.getD "") && isValidObjectId (p.sellerId.getD "") &&
    isValidObjectId (p.userId.getD "")

/-- Result of the connection handshake: a rejection (error payload sent,
then close with a code and reason), or an admission carrying the bound
query and the identities of the superseded connections. -/
inductive ConnResult where
  | rejected (payload : OutPayload) (closeCode : Nat) (closeReason : String)
  | accepted (q : Query) (superseded : List Nat)
deriving DecidableEq

/-- The connection handler from the models/User.js draft: missing
parameters send an error object and close with code 1008; invalid ObjectId
parameters likewise; otherwise the query is bound to the socket and the
connection is registered, evicting stale same-user same-gig connections. -/
def handleConnection (r : Registry) (p : ConnParams) (cid : Nat) :
    ConnResult × Registry :=
  if !paramsPresent p then
    (.rejected (.errJson "Missing required query parameters") 1008
      "Missing gigId, sellerId, or userId", r)
  else if !paramsValid p then
    (.rejected (.errJson "Invalid gigId, sellerId, or userId") 1008
      "Invalid gigId, sellerId, or userId", r)
  else
    let q : Query := ⟨p.gigId.getD "", p.sellerId.getD "", p.userId.getD ""⟩
    let res := registerConn r q.userId q cid
    (.accepted q res.2, res.1)

/- Concrete identifiers and scenario data used by the witnesses below. -/

def gidA : String := "aaaaaaaaaaaaaaaaaaaaaaaa"

def sidA : String := "bbbbbbbbbbbbbbbbbbbbbbbb"

def uidA : String := "cccccccccccccccccccccccc"

def gidB : String := "dddddddddddddddddddddddd"

def qBuyer : Query := ⟨gidA, sidA, uidA⟩

def qSeller : Query := ⟨gidA, sidA, sidA⟩

def qOther : Query := ⟨gidB, sidA, uidA⟩

def clBuyer : Client := ⟨1, some qBuyer⟩

def clSeller : Client := ⟨1, some qSeller⟩

def clOther : Client := ⟨1, some qOther⟩

def mHi : InboundMessage := ⟨some gidA, some uidA, some "hi", none, some 100, none⟩

def mZeroTs : InboundMessage := ⟨some gidA, some uidA, some "hi", none, some 0, none⟩

def mTs7 : InboundMessage := ⟨some gidA, some uidA, some "hi", none, some 7, none⟩

def mNoText : InboundMessage := ⟨some gidA, some uidA, none, none, some 5, none⟩

def mBadGig : InboundMessage := ⟨some "zzz", some uidA, some "hi", none, some 5, none⟩

def mOtherGig : InboundMessage := ⟨some gidB, some uidA, some "hi", none, some 100, none⟩

def mZeroA : InboundMessage := ⟨some gidA, some uidA, some "hello", none, some 0, none⟩

def mZeroB : InboundMessage := ⟨some gidA, some uidA, some "world", none, some 0, none⟩

def reg1 : Registry := [(uidA, [(1, qBuyer)])]

def pMissing : ConnParams := ⟨none, some sidA, some uidA⟩

theorem findBucket_setBucket_self (r : Registry) (uid : String) (b : Bucket) :
    Registry.findBucket (Registry.setBucket r uid b) uid = some b := by
  induction r with
  | nil => simp [Registry.setBucket, Registry.findBucket]
  | cons hd tl ih =>
    obtain ⟨u, b0⟩ := hd
    by_cases h : u = uid <;>
      simp [Registry.setBucket, Registry.findBucket, h, ih]

theorem findBucket_mem {r : Registry} {uid : String} {b : Bucket}
    (h : Registry.findBucket r uid = some b) : (uid, b) ∈ r := by
  induction r with
  | nil => simp [Registry.findBucket] at h
  | cons hd tl ih =>
    obtain ⟨u, b0⟩ := hd
    by_cases hu : u = uid
    · subst hu
      simp [Registry.findBucket] at h
      subst h
      exact List.mem_cons_self _ _
    · simp [Registry.findBucket, hu] at h
      exact List.mem_cons_of_mem _ (ih h)

theorem findBucket_eq_none {r : Registry} {uid : String}
    (h : Registry.findBucket r uid = none) : ∀ p ∈ r, p.1 ≠ uid := by
  induction r with
  | nil => simp
  | cons hd tl ih =>
    obtain ⟨u, b0⟩ := hd
    by_cases hu : u = uid
    · simp [Registry.findBucket, hu] at h
    · simp [Registry.findBucket, hu] at h
      intro p hp
      rcases List.mem_cons.mp hp with hp1 | hp1
      · simp [hp1, hu]
      · exact ih h p hp1

theorem mem_setBucket {r : Registry} {uid : String} {b : Bucket} {p : String × Bucket}
    (hnd : (bucketKeys r).Nodup) (hp : p ∈ Registry.setBucket r uid b) :
    p = (uid, b) ∨ (p ∈ r ∧ p.1 ≠ uid) := by
  induction r with
  | nil =>
    simp [Registry.setBucket] at hp
    exact Or.inl hp
  | cons hd tl ih =>
    obtain ⟨u, b0⟩ := hd
    simp only [bucketKeys, List.map_cons, List.nodup_cons] at hnd
    by_cases hu : u = uid
    · subst hu
      simp [Registry.setBucket] at hp
      rcases hp with hp | hp
      · exact Or.inl hp
      · refine Or.inr ⟨List.mem_cons_of_mem _ hp, ?_⟩
        intro hc
        exact hnd.1 (by
          rw [← hc]
          exact List.mem_map_of_mem Prod.fst hp)
    · simp only [Registry.setBucket, if_neg hu, List.mem_cons] at hp
      rcases hp with hp | hp
      · exact Or.inr ⟨by simp [hp], by simp [hp]; exact hu⟩
      · rcases ih hnd.2 hp with h1 | h1
        · exact Or.inl h1
        · exact Or.inr ⟨List.mem_cons_of_mem _ h1.1, h1.2⟩

theorem mem_eraseKey {r : Registry} {uid : String} {p : String × Bucket}
    (hnd : (bucketKeys r).Nodup) (hp : p ∈ Registry.eraseKey r uid) :
    p ∈ r ∧ p.1 ≠ uid := by
  induction r with
  | nil => simp [Registry.eraseKey] at hp
  | cons hd tl ih =>
    obtain ⟨u, b0⟩ := hd
    simp only [bucketKeys, List.map_cons, List.nodup_cons] at hnd
    by_cases hu : u = uid
    · subst hu
      simp only [Registry.eraseKey, if_pos rfl] at hp
      refine ⟨List.mem_cons_of_mem _ hp, ?_⟩
      intro hc
      exact hnd.1 (by
        rw [← hc]
        exact List.mem_map_of_mem Prod.fst hp)
    · simp only [Registry.eraseKey, if_neg hu, List.mem_cons] at hp
      rcases hp with hp | hp
      · exact ⟨by simp [hp], by simp [hp]; exact hu⟩
      · rcases ih hnd.2 hp with ⟨h1, h2⟩
        exact ⟨List.mem_cons_of_mem _ h1, h2⟩

theorem mem_allConns {r : Registry} {c : RegConn} :
    c ∈ Registry.allConns r ↔ ∃ p ∈ r, c ∈ p.2 := by
  induction r with
  | nil => simp [Registry.allConns]
  | cons hd tl ih =>
    obtain ⟨u, b⟩ := hd
    simp only [Registry.allConns, List.mem_append, ih, List.mem_cons]
    constructor
    · rintro (hc | ⟨p, hp, hcp⟩)
      · exact ⟨(u, b), Or.inl rfl, hc⟩
      · exact ⟨p, Or.inr hp, hcp⟩
    · rintro ⟨p, hp | hp, hcp⟩
      · subst hp
        exact Or.inl hcp
      · exact Or.inr ⟨p, hp, hcp⟩

theorem length_filter_filter_le {α : Type} (p q : α → Bool) (l : List α) :
    ((l.filter q).filter p).length ≤ (l.filter p).length := by
  induction l with
  | nil => simp
  | cons a tl ih =>
    by_cases hq : q a <;> by_cases hp : p a <;>
      simp [List.filter_cons, hq, hp, -List.filter_filter] <;> omega

theorem registerConn_eq (r : Registry) (uid : String) (q : Query) (cid : Nat) :
    registerConn r uid q cid =
      (Registry.setBucket r uid
          (((Registry.findBucket r uid).getD [] ++ [(cid, q)]).filter
            (fun c => c.1 == cid || c.2.gigId != q.gigId)),
        (((Registry.findBucket r uid).getD [] ++ [(cid, q)]).filter
            (fun c => !(c.1 == cid) && c.2.gigId == q.gigId)).map Prod.fst) := by
  cases hb : (Registry.findBucket r uid).getD [] with
  | nil => simp [registerConn, hb]
  | cons hd tl =>
    simp only [registerConn, hb]
    rw [if_pos (by simp)]

/-- Each gigId occurs on at most one connection in the bucket held for any
userId present in the registry (trivially for an absent userId). -/
theorem bucket_gig_count_le_one {r : Registry} {uid : String}
    (hinv : atMostOnePerPair r) (gig : String) :
    ((((Registry.findBucket r uid).getD []).filter
      (fun c => c.2.gigId == gig)).length ≤ 1) := by
  cases hfb : Registry.findBucket r uid with
  | none => simp
  | some b => simpa using hinv (uid, b) (findBucket_mem hfb) gig

/-- Claim C2: admitting a new connection for a (userId, gigId) pair that
already has a registered connection closes and removes each prior
same-userId same-gigId connection, so that the registry always holds at
most one connection per (userId, gigId) pair, and each superseded
connection observes a close event. -/
theorem register_enforces_single_conn_per_pair
    (r : Registry) (uid : String) (q : Query) (cid : Nat)
    (hnd : (bucketKeys r).Nodup)
    (hinv : atMostOnePerPair r)
    (hfresh : ∀ c ∈ (Registry.findBucket r uid).getD [], c.1 ≠ cid) :
    atMostOnePerPair (registerConn r uid q cid).1 ∧
    ∃ b : Bucket,
      Registry.findBucket (registerConn r uid q cid).1 uid = some b ∧
      (cid, q) ∈ b ∧
      ∀ c ∈ (Registry.findBucket r uid).getD [], c.2.gigId = q.gigId →
        c.1 ∈ (registerConn r uid q cid).2 ∧ c ∉ b := by
  rw [registerConn_eq]
  constructor
  · intro p hp gig
    rcases mem_setBucket hnd hp with hpe | ⟨hpr, _⟩
    · subst hpe
      simp only [List.filter_append]
      by_cases hgig : gig = q.gigId
      · subst hgig
        have hnil :
            ((((Registry.findBucket r uid).getD []).filter
                (fun c => c.1 == cid || c.2.gigId != q.gigId)).filter
              (fun c => c.2.gigId == q.gigId)) = [] := by
          rw [List.filter_eq_nil_iff]
          intro c hc
          have hc1 := List.mem_filter.mp hc
          have hne := hfresh c hc1.1
          have hkeep := hc1.2
          simp [hne] at hkeep
          simp [hkeep]
        rw [hnil]
        simp
      · have h1 :
            ((([(cid, q)]).filter (fun c => c.1 == cid || c.2.gigId != q.gigId)).filter
              (fun c => c.2.gigId == gig)) = [] := by
          simp [List.filter_cons]
          intro h
          exact absurd h.symm hgig
        rw [h1, List.append_nil]
        calc ((((Registry.findBucket r uid).getD []).filter
                (fun c => c.1 == cid || c.2.gigId != q.gigId)).filter
              (fun c => c.2.gigId == gig)).length
            ≤ ((((Registry.findBucket r uid).getD []).filter
                (fun c => c.2.gigId == gig)).length) :=
              length_filter_filter_le _ _ _
          _ ≤ 1 := bucket_gig_count_le_one hinv gig
    · exact hinv p hpr gig
  · refine ⟨_, findBucket_setBucket_self r uid _, ?_, ?_⟩
    · exact List.mem_filter.mpr
        ⟨List.mem_append_right _ (List.mem_singleton_self _), by simp⟩
    · intro c hc hcg
      constructor
      · exact List.mem_map.mpr
          ⟨c, List.mem_filter.mpr ⟨List.mem_append_left _ hc,
            by simp [hcg, hfresh c hc]⟩, rfl⟩
      · intro hmem
        have hk := (List.mem_filter.mp hmem).2
        simp [hfresh c hc, hcg] at hk

/-- Claim C5: when an admitted connection closes, it is removed from the
registry — no subsequent matching query includes it — and if its removal
leaves the bucket of its userId empty, the userId entry itself is removed,
so no empty buckets remain. -/
theorem close_removes_conn_no_empty_buckets
    (r : Registry) (uid : String) (cid : Nat)
    (hnd : (bucketKeys r).Nodup)
    (honly : ∀ p ∈ r, p.1 ≠ uid → ∀ c ∈ p.2, c.1 ≠ cid)
    (hne : ∀ p ∈ r, p.2 ≠ []) :
    (∀ c ∈ Registry.allConns (removeConn r uid cid), c.1 ≠ cid) ∧
    (∀ key : Query, ∀ c ∈ matching (removeConn r uid cid) key, c.1 ≠ cid) ∧
    (∀ p ∈ removeConn r uid cid, p.2 ≠ []) := by
  have hmain : (∀ c ∈ Registry.allConns (removeConn r uid cid), c.1 ≠ cid) ∧
      (∀ p ∈ removeConn r uid cid, p.2 ≠ []) := by
    unfold removeConn
    cases hfb : Registry.findBucket r uid with
    | none =>
      refine ⟨?_, hne⟩
      intro c hc
      obtain ⟨p, hp, hcp⟩ := mem_allConns.mp hc
      exact honly p hp (findBucket_eq_none hfb p hp) c hcp
    | some b =>
      by_cases hb1 : (b.filter (fun c => !(c.1 == cid))).isEmpty
      · simp only [hb1, if_pos]
        constructor
        · intro c hc
          obtain ⟨p, hp, hcp⟩ := mem_allConns.mp hc
          obtain ⟨hpr, hpu⟩ := mem_eraseKey hnd hp
          exact honly p hpr hpu c hcp
        · intro p hp
          exact hne p (mem_eraseKey hnd hp).1
      · simp only [hb1, if_neg, Bool.false_eq_true, not_false_iff]
        constructor
        · intro c hc
          obtain ⟨p, hp, hcp⟩ := mem_allConns.mp hc
          rcases mem_setBucket hnd hp with hpe | ⟨hpr, hpu⟩
          · subst hpe
            have := (List.mem_filter.mp hcp).2
            simpa using this
          · exact honly p hpr hpu c hcp
        · intro p hp
          rcases mem_setBucket hnd hp with hpe | ⟨hpr, _⟩
          · subst hpe
            intro hnil
            rw [List.isEmpty_iff] at hb1
            exact hb1 hnil
          · exact hne p hpr
  refine ⟨hmain.1, ?_, hmain.2⟩
  intro key c hc
  exact hmain.1 c (List.mem_filter.mp hc).1

theorem processMessageESM_accepted {now : Int} {clients : List Client}
    {connQ : Query} {store : List StoredMessage} {m : InboundMessage}
    (h : (processMessageESM now clients connQ store m).broadcastPayload.isSome) :
    hasRequiredFields m = true ∧ hasValidIds m = true ∧
    processMessageESM now clients connQ store m =
      ⟨store ++ [mkStored m (if truthyInt m.timestamp then m.timestamp.getD 0 else now) none],
        none,
        some (mkStored m (if truthyInt m.timestamp then m.timestamp.getD 0 else now) none),
        audience clients connQ, none⟩ := by
  by_cases h1 : hasRequiredFields m
  · by_cases h2 : hasValidIds m
    · exact ⟨h1, h2, by simp [processMessageESM, h1, h2]⟩
    · simp [processMessageESM, h1, h2] at h
  · simp [processMessageESM, h1] at h

theorem processMessageWindowed_accepted {clients : List Client}
    {connQ : Query} {store : List StoredMessage} {m : InboundMessage}
    (h : (processMessageWindowed clients connQ store m).broadcastPayload.isSome) :
    ∃ ts : Int, m.timestamp = some ts ∧
      hasRequiredFields m = true ∧ hasValidIds m = true ∧
      store.any (matchesDupWindow m ts) = false ∧
      processMessageWindowed clients connQ store m =
        ⟨store ++ [mkStored m ts none], none, some (mkStored m ts none),
          audience clients connQ, none⟩ := by
  by_cases h1 : hasRequiredFields m
  · by_cases h2 : hasValidIds m
    · cases hts : m.timestamp with
      | none => simp [processMessageWindowed, h1, h2, hts] at h
      | some ts =>
        by_cases h3 : store.any (matchesDupWindow m ts)
        · simp [processMessageWindowed, h1, h2, hts, h3] at h
        · exact ⟨ts, rfl, h1, h2, by simpa using h3,
            by simp [processMessageWindowed, h1, h2, hts, h3]⟩
    · simp [processMessageWindowed, h1, h2] at h
  · simp [processMessageWindowed, h1] at h

theorem processMessageKeyed_accepted {now : Int} {clients : List Client}
    {connQ : Query} {store : List StoredMessage} {m : InboundMessage}
    (h : (processMessageKeyed now clients connQ store m).broadcastPayload.isSome) :
    hasRequiredFields m = true ∧ hasValidIds m = true ∧
    store.any (fun s => s.messageId == some (mkMessageId now m)) = false ∧
    processMessageKeyed now clients connQ store m =
      ⟨store ++ [mkStored m (if truthyInt m.timestamp then m.timestamp.getD 0 else now)
          (some (mkMessageId now m))],
        none,
        some (mkStored m (if truthyInt m.timestamp then m.timestamp.getD 0 else now)
          (some (mkMessageId now m))),
        audience clients connQ, none⟩ := by
  by_cases h1 : hasRequiredFields m
  · by_cases h2 : hasValidIds m
    · by_cases h3 : store.any (fun s => s.messageId == some (mkMessageId now m))
      · simp [processMessageKeyed, h1, h2, h3] at h
      · exact ⟨h1, h2, by simpa using h3,
          by simp [processMessageKeyed, h1, h2, h3]⟩
    · simp [processMessageKeyed, h1, h2] at h
  · simp [processMessageKeyed, h1] at h

/-- Claim C1: for admitted connections A and B sharing a gigId and being the
two designated parties of the conversation, an accepted message sent by A is
delivered to both A and B, and to no connection admitted with a different
gigId. -/
theorem broadcast_delivers_to_both_parties
    (now : Int) (clients : List Client) (store : List StoredMessage)
    (m : InboundMessage) (A B : Client) (qa qb : Query)
    (hA : A ∈ clients) (hB : B ∈ clients)
    (hAopen : A.readyState = wsOPEN) (hBopen : B.readyState = wsOPEN)
    (hAq : A.query = some qa) (hBq : B.query = some qb)
    (hgig : qb.gigId = qa.gigId)
    (hparty : qb.userId = qa.userId ∨ qb.userId = qa.sellerId)
    (hacc : (processMessageESM now clients qa store m).broadcastPayload.isSome) :
    A ∈ (processMessageESM now clients qa store m).recipients ∧
    B ∈ (processMessageESM now clients qa store m).recipients ∧
    ∀ c ∈ clients, ∀ qc : Query, c.query = some qc → qc.gigId ≠ qa.gigId →
      c ∉ (processMessageESM now clients qa store m).recipients := by
  obtain ⟨h1, h2, heq⟩ := processMessageESM_accepted hacc
  rw [heq]
  refine ⟨?_, ?_, ?_⟩
  · exact List.mem_filter.mpr ⟨hA, by simp [inAudience, hAq, hAopen]⟩
  · refine List.mem_filter.mpr ⟨hB, ?_⟩
    rcases hparty with hp | hp <;> simp [inAudience, hBq, hBopen, hgig, hp]
  · intro c hc qc hq hne hmem
    have hfilt := (List.mem_filter.mp hmem).2
    simp [inAudience, hq] at hfilt
    exact hne hfilt.2.1

/-- Claim C9: the broadcast audience is computed solely from the admission
query parameters of the sending connection; a message whose own gigId
differs from the admission gigId is persisted under the message gigId yet
delivered to the audience of the admission conversation. -/
theorem audience_from_admission_params_only
    (now : Int) (clients : List Client) (connQ : Query)
    (store : List StoredMessage) (m : InboundMessage) (g : String)
    (hg : m.gigId = some g) (hdiff : g ≠ connQ.gigId)
    (hacc : (processMessageESM now clients connQ store m).broadcastPayload.isSome) :
    (processMessageESM now clients connQ store m).recipients = audience clients connQ ∧
    ∃ s : StoredMessage,
      (processMessageESM now clients connQ store m).broadcastPayload = some s ∧
      (processMessageESM now clients connQ store m).store = store ++ [s] ∧
      s.gigId = g ∧ s.gigId ≠ connQ.gigId := by
  obtain ⟨h1, h2, heq⟩ := processMessageESM_accepted hacc
  rw [heq]
  refine ⟨rfl, _, rfl, rfl, ?_, ?_⟩
  · simp [mkStored, hg]
  · simpa [mkStored, hg] using hdiff

/-- Claim C4: a connection whose establishment parameters are missing or
fail identifier validation is sent a structured JSON error payload, closed
with policy-violation code 1008, and the registry is never modified. -/
theorem invalid_params_rejected_registry_untouched
    (r : Registry) (p : ConnParams) (cid : Nat)
    (h : ¬(paramsPresent p = true ∧ paramsValid p = true)) :
    ∃ reason closeReason : String,
      handleConnection r p cid =
        (.rejected (.errJson reason) 1008 closeReason, r) := by
  by_cases h1 : paramsPresent p
  · have h2 : ¬ paramsValid p = true := fun hv => h ⟨h1, hv⟩
    exact ⟨"Invalid gigId, sellerId, or userId", "Invalid gigId, sellerId, or userId",
      by simp [handleConnection, h1, h2]⟩
  · exact ⟨"Missing required query parameters", "Missing gigId, sellerId, or userId",
      by simp [handleConnection, h1]⟩

/-- Claim C6: an inbound message with a missing text field is rejected with
a message-format error sent back on the same connection, produces no
StoredMessage and no broadcast, and the connection is not closed. -/
theorem missing_text_rejected_no_store
    (now : Int) (clients : List Client) (connQ : Query)
    (store : List StoredMessage) (m : InboundMessage)
    (h : m.text = none) :
    processMessageESM now clients connQ store m =
      ⟨store, some (.errJson "Invalid message format"), none, [], none⟩ := by
  have hreq : hasRequiredFields m = false := by
    simp [hasRequiredFields, h, truthyStr]
  simp [processMessageESM, hreq]

/-- Claim C7: an inbound message whose gigId is not a syntactically valid
store identifier is rejected with an error payload and produces no
StoredMessage, even when its text and senderId are valid. -/
theorem invalid_gigid_rejected_no_store
    (now : Int) (clients : List Client) (connQ : Query)
    (store : List StoredMessage) (m : InboundMessage)
    (hginv : isValidObjectId (m.gigId.getD "") = false)
    (hsender : truthyStr m.senderId = true)
    (hsv : isValidObjectId (m.senderId.getD "") = true)
    (htext : truthyStr m.text = true) :
    ∃ reason : String,
      processMessageESM now clients connQ store m =
        ⟨store, some (.errJson reason), none, [], none⟩ := by
  by_cases h1 : hasRequiredFields m
  · have h2 : hasValidIds m = false := by simp [hasValidIds, hginv]
    exact ⟨"Invalid message IDs", by simp [processMessageESM, h1, h2]⟩
  · exact ⟨"Invalid message format", by simp [processMessageESM, h1]⟩

theorem processMessageWindowed_dup {clients : List Client} {connQ : Query}
    {store : List StoredMessage} {m : InboundMessage} {ts : Int}
    (hf : hasRequiredFields m = true) (hv : hasValidIds m = true)
    (hts : m.timestamp = some ts)
    (hdup : store.any (matchesDupWindow m ts) = true) :
    processMessageWindowed clients connQ store m =
      ⟨store, some (.errJson "Duplicate message detected"), none, [], none⟩ := by
  simp [processMessageWindowed, hf, hv, hts, hdup]

theorem processMessageWindowed_new {clients : List Client} {connQ : Query}
    {store : List StoredMessage} {m : InboundMessage} {ts : Int}
    (hf : hasRequiredFields m = true) (hv : hasValidIds m = true)
    (hts : m.timestamp = some ts)
    (hdup : store.any (matchesDupWindow m ts) = false) :
    processMessageWindowed clients connQ store m =
      ⟨store ++ [mkStored m ts none], none, some (mkStored m ts none),
        audience clients connQ, none⟩ := by
  simp [processMessageWindowed, hf, hv, hts, hdup]

theorem processMessageKeyed_dup {now : Int} {clients : List Client} {connQ : Query}
    {store : List StoredMessage} {m : InboundMessage}
    (hf : hasRequiredFields m = true) (hv : hasValidIds m = true)
    (hdup : store.any (fun s => s.messageId == some (mkMessageId now m)) = true) :
    processMessageKeyed now clients connQ store m = ⟨store, none, none, [], none⟩ := by
  simp [processMessageKeyed, hf, hv, hdup]

/-- Claim C3: with the windowed dedup, an accepted message followed by an
identical (gigId, senderId, text) message whose timestamp lies within the
5000 ms window yields exactly one StoredMessage and exactly one broadcast,
the second being rejected as a duplicate with no persistence and no
routing; while an identical message sent more than the window interval
later is stored and broadcast as a second message. -/
theorem windowed_dedup_single_store_and_broadcast
    (clients : List Client) (connQ : Query) (store : List StoredMessage)
    (g sd tx : String) (rc1 rc2 rc3 : Option String) (t1 t2 t3 : Int)
    (hacc : (processMessageWindowed clients connQ store
        ⟨some g, some sd, some tx, rc1, some t1, none⟩).broadcastPayload.isSome)
    (horder : t1 ≤ t2) (hwin : t2 - t1 ≤ 5000)
    (hfar : t1 + 5000 < t3)
    (hv2 : hasValidIds ⟨some g, some sd, some tx, rc2, some t2, none⟩ = true)
    (hv3 : hasValidIds ⟨some g, some sd, some tx, rc3, some t3, none⟩ = true) :
    (processMessageWindowed clients connQ store
        ⟨some g, some sd, some tx, rc1, some t1, none⟩).store =
      store ++ [mkStored ⟨some g, some sd, some tx, rc1, some t1, none⟩ t1 none] ∧
    processMessageWindowed clients connQ
        (store ++ [mkStored ⟨some g, some sd, some tx, rc1, some t1, none⟩ t1 none])
        ⟨some g, some sd, some tx, rc2, some t2, none⟩ =
      ⟨store ++ [mkStored ⟨some g, some sd, some tx, rc1, some t1, none⟩ t1 none],
        some (.errJson "Duplicate message detected"), none, [], none⟩ ∧
    processMessageWindowed clients connQ
        (store ++ [mkStored ⟨some g, some sd, some tx, rc1, some t1, none⟩ t1 none])
        ⟨some g, some sd, some tx, rc3, some t3, none⟩ =
      ⟨(store ++ [mkStored ⟨some g, some sd, some tx, rc1, some t1, none⟩ t1 none])
          ++ [mkStored ⟨some g, some sd, some tx, rc3, some t3, none⟩ t3 none],
        none,
        some (mkStored ⟨some g, some sd, some tx, rc3, some t3, none⟩ t3 none),
        audience clients connQ, none⟩ := by
  obtain ⟨ts, hts, h1, h2, hnodup, heq⟩ := processMessageWindowed_accepted hacc
  have hts1 : ts = t1 := by
    simpa using hts.symm
  subst hts1
  have hreq2 : hasRequiredFields
      (⟨some g, some sd, some tx, rc2, some t2, none⟩ : InboundMessage) = true := h1
  have hreq3 : hasRequiredFields
      (⟨some g, some sd, some tx, rc3, some t3, none⟩ : InboundMessage) = true := h1
  have hnostore : ∀ s ∈ store, s.gigId = g → s.userId = sd → s.text = tx →
      s.timestamp < ts - 5000 := by
    intro s hs hsg hsu hst
    have hx := (List.any_eq_false.mp hnodup) s hs
    simp [matchesDupWindow, hsg, hsu, hst] at hx
    omega
  have hdup2 : (store ++
      [mkStored ⟨some g, some sd, some tx, rc1, some ts, none⟩ ts none]).any
      (matchesDupWindow ⟨some g, some sd, some tx, rc2, some t2, none⟩ t2) = true := by
    rw [List.any_eq_true]
    refine ⟨mkStored ⟨some g, some sd, some tx, rc1, some ts, none⟩ ts none,
      List.mem_append_right _ (List.mem_singleton_self _), ?_⟩
    simp [matchesDupWindow, mkStored]
    omega
  have hnodup3 : (store ++
      [mkStored ⟨some g, some sd, some tx, rc1, some ts, none⟩ ts none]).any
      (matchesDupWindow ⟨some g, some sd, some tx, rc3, some t3, none⟩ t3) = false := by
    rw [List.any_eq_false]
    intro s hs
    rcases List.mem_append.mp hs with hs1 | hs1
    · intro hmatch
      simp [matchesDupWindow] at hmatch
      obtain ⟨⟨⟨hsg, hsu⟩, hst⟩, hle⟩ := hmatch
      have := hnostore s hs1 hsg hsu hst
      omega
    · rw [List.mem_singleton] at hs1
      subst hs1
      intro hmatch
      simp [matchesDupWindow, mkStored] at hmatch
      omega
  exact ⟨by rw [heq],
    processMessageWindowed_dup hreq2 hv2 rfl hdup2,
    processMessageWindowed_new hreq3 hv3 rfl hnodup3⟩

/-- Claim C8 counterexample: the ESM variant accepts a message carrying the
client timestamp 0 but persists the server time (here 5) instead of the
supplied 0, since a present-but-zero timestamp is falsy in JavaScript; so
the persisted timestamp differs from the client-supplied one even though
one is present in the input. -/
theorem timestamp_claim_counterexample :
    mZeroTs.timestamp = some 0 ∧
    processMessageESM 5 [] qBuyer [] mZeroTs =
      ⟨[mkStored mZeroTs 5 none], none, some (mkStored mZeroTs 5 none), [], none⟩ ∧
    (mkStored mZeroTs 5 none).timestamp = 5 := by
  decide

/-- Claim C8 amended: for every accepted inbound message, the persisted
timestamp equals the client-supplied timestamp when one is present and
nonzero; in the ESM variant a zero (falsy) or absent client timestamp
yields the server-assigned current time instead, and in the windowed-dedup
variant the persisted timestamp is always exactly the client-supplied one
(a message without a timestamp is never accepted by that variant). -/
theorem timestamp_client_or_server_assigned
    (now : Int) (clients : List Client) (connQ : Query)
    (store : List StoredMessage) (m : InboundMessage) (s : StoredMessage) :
    ((processMessageESM now clients connQ store m).broadcastPayload = some s →
      s.timestamp = (if truthyInt m.timestamp then m.timestamp.getD 0 else now)) ∧
    ((processMessageWindowed clients connQ store m).broadcastPayload = some s →
      m.timestamp = some s.timestamp) := by
  constructor
  · intro hbp
    have hacc : (processMessageESM now clients connQ store m).broadcastPayload.isSome := by
      rw [hbp]
      rfl
    obtain ⟨h1, h2, heq⟩ := processMessageESM_accepted hacc
    rw [heq] at hbp
    simp at hbp
    rw [← hbp]
    rfl
  · intro hbp
    have hacc : (processMessageWindowed clients connQ store m).broadcastPayload.isSome := by
      rw [hbp]
      rfl
    obtain ⟨ts, hts, h1, h2, h3, heq⟩ := processMessageWindowed_accepted hacc
    rw [heq] at hbp
    simp at hbp
    rw [hts, ← hbp]
    rfl

/-- Claim C10 counterexample: with no client messageId and the falsy client
timestamp 0, the keyed variant keys on senderId joined to Date.now() rather
than to the client timestamp; two same-sender, same-zero-timestamp,
different-text messages processed at server times 1000 and 2000 receive
different keys, and the second is persisted and broadcast — it is not
treated as a duplicate, contrary to the claim. -/
theorem keyed_dedup_claim_counterexample :
    mZeroA.messageId = none ∧ mZeroB.messageId = none ∧
    mZeroA.timestamp = some 0 ∧ mZeroB.timestamp = some 0 ∧
    mkMessageId 1000 mZeroA = uidA ++ ":" ++ toString (1000 : Int) ∧
    mkMessageId 2000 mZeroB = uidA ++ ":" ++ toString (2000 : Int) ∧
    (processMessageKeyed 2000 [clBuyer] qBuyer
        (processMessageKeyed 1000 [clBuyer] qBuyer [] mZeroA).store mZeroB).store =
      (processMessageKeyed 1000 [clBuyer] qBuyer [] mZeroA).store ++
        [mkStored mZeroB 2000 (some (uidA ++ ":" ++ toString (2000 : Int)))] ∧
    (processMessageKeyed 2000 [clBuyer] qBuyer
        (processMessageKeyed 1000 [clBuyer] qBuyer [] mZeroA).store
        mZeroB).broadcastPayload.isSome = true := by
  decide

/-- Claim C10 amended: in the messageId-keyed variant, a message carrying no
client messageId and a present nonzero client timestamp gets the dedup key
senderId joined to the client timestamp by a colon, a key that excludes the
text; two messages from the same sender with the same nonzero client
timestamp but different text are hence treated as duplicates, the second
producing no StoredMessage and no broadcast (it is silently dropped, with
no reply either).  When the client timestamp is absent or zero (falsy) the
key instead falls back to senderId joined to Date.now(), so such messages
processed at different server times are not deduplicated. -/
theorem keyed_dedup_ignores_text
    (now : Int) (clients : List Client) (connQ : Query) (store : List StoredMessage)
    (g1 g2 sd tx1 tx2 : String) (rc1 rc2 : Option String) (t : Int)
    (ht : ¬ t = 0) (htx : tx1 ≠ tx2)
    (hacc : (processMessageKeyed now clients connQ store
        ⟨some g1, some sd, some tx1, rc1, some t, none⟩).broadcastPayload.isSome)
    (hf2 : hasRequiredFields ⟨some g2, some sd, some tx2, rc2, some t, none⟩ = true)
    (hv2 : hasValidIds ⟨some g2, some sd, some tx2, rc2, some t, none⟩ = true) :
    mkMessageId now ⟨some g2, some sd, some tx2, rc2, some t, none⟩ =
      sd ++ ":" ++ toString t ∧
    processMessageKeyed now clients connQ
        (processMessageKeyed now clients connQ store
          ⟨some g1, some sd, some tx1, rc1, some t, none⟩).store
        ⟨some g2, some sd, some tx2, rc2, some t, none⟩ =
      ⟨(processMessageKeyed now clients connQ store
          ⟨some g1, some sd, some tx1, rc1, some t, none⟩).store,
        none, none, [], none⟩ := by
  obtain ⟨h1, h2, h3, heq⟩ := processMessageKeyed_accepted hacc
  have hmid2 : mkMessageId now
      (⟨some g2, some sd, some tx2, rc2, some t, none⟩ : InboundMessage) =
      sd ++ ":" ++ toString t := by
    simp [mkMessageId, truthyStr, truthyInt, ht]
  have hmid1 : mkMessageId now
      (⟨some g1, some sd, some tx1, rc1, some t, none⟩ : InboundMessage) =
      sd ++ ":" ++ toString t := by
    simp [mkMessageId, truthyStr, truthyInt, ht]
  have hdup : ((processMessageKeyed now clients connQ store
      ⟨some g1, some sd, some tx1, rc1, some t, none⟩).store).any
      (fun s => s.messageId ==
        some (mkMessageId now ⟨some g2, some sd, some tx2, rc2, some t, none⟩)) = true := by
    rw [heq]
    rw [List.any_eq_true]
    refine ⟨_, List.mem_append_right _ (List.mem_singleton_self _), ?_⟩
    simp [mkStored, hmid1, hmid2]
  exact ⟨hmid2, processMessageKeyed_dup hf2 hv2 hdup⟩

/-- Witness for C1 on a concrete scenario: buyer and seller connections for
gig gidA plus a third connection admitted for gig gidB; the buyer message
reaches buyer and seller but not the third connection. -/
theorem broadcast_delivers_to_both_parties_witness :
    clBuyer ∈ (processMessageESM 5 [clBuyer, clSeller, clOther] qBuyer [] mHi).recipients ∧
    clSeller ∈ (processMessageESM 5 [clBuyer, clSeller, clOther] qBuyer [] mHi).recipients ∧
    clOther ∉ (processMessageESM 5 [clBuyer, clSeller, clOther] qBuyer [] mHi).recipients := by
  have h := broadcast_delivers_to_both_parties 5 [clBuyer, clSeller, clOther] [] mHi
    clBuyer clSeller qBuyer qSeller
    (by decide) (by decide) rfl rfl rfl rfl rfl (Or.inr rfl) (by decide)
  exact ⟨h.1, h.2.1, h.2.2 clOther (by decide) qOther rfl (by decide)⟩

/-- Witness for C2: registering a second connection (socket 2) for the same
user and gig evicts and closes socket 1. -/
theorem register_enforces_single_conn_per_pair_witness :
    atMostOnePerPair (registerConn reg1 uidA qBuyer 2).1 ∧
    ∃ b : Bucket,
      Registry.findBucket (registerConn reg1 uidA qBuyer 2).1 uidA = some b ∧
      (2, qBuyer) ∈ b ∧
      ∀ c ∈ (Registry.findBucket reg1 uidA).getD [], c.2.gigId = qBuyer.gigId →
        c.1 ∈ (registerConn reg1 uidA qBuyer 2).2 ∧ c ∉ b := by
  refine register_enforces_single_conn_per_pair reg1 uidA qBuyer 2 (by decide) ?_ (by decide)
  intro p hp gig
  simp [reg1] at hp
  subst hp
  simpa using List.length_filter_le (fun c => c.2.gigId == gig) [(1, qBuyer)]

/-- Witness for C3 at a concrete run: a first message at timestamp 10000, a
duplicate at 12000 (within the window), and a fresh resend at 20000. -/
theorem windowed_dedup_single_store_and_broadcast_witness :
    (processMessageWindowed [] qBuyer []
        ⟨some gidA, some uidA, some "hi", none, some 10000, none⟩).store =
      [] ++ [mkStored ⟨some gidA, some uidA, some "hi", none, some 10000, none⟩ 10000 none] ∧
    processMessageWindowed [] qBuyer
        ([] ++ [mkStored ⟨some gidA, some uidA, some "hi", none, some 10000, none⟩ 10000 none])
        ⟨some gidA, some uidA, some "hi", none, some 12000, none⟩ =
      ⟨[] ++ [mkStored ⟨some gidA, some uidA, some "hi", none, some 10000, none⟩ 10000 none],
        some (.errJson "Duplicate message detected"), none, [], none⟩ ∧
    processMessageWindowed [] qBuyer
        ([] ++ [mkStored ⟨some gidA, some uidA, some "hi", none, some 10000, none⟩ 10000 none])
        ⟨some gidA, some uidA, some "hi", none, some 20000, none⟩ =
      ⟨([] ++ [mkStored ⟨some gidA, some uidA, some "hi", none, some 10000, none⟩ 10000 none])
          ++ [mkStored ⟨some gidA, some uidA, some "hi", none, some 20000, none⟩ 20000 none],
        none,
        some (mkStored ⟨some gidA, some uidA, some "hi", none, some 20000, none⟩ 20000 none),
        audience [] qBuyer, none⟩ :=
  windowed_dedup_single_store_and_broadcast [] qBuyer [] gidA uidA "hi"
    none none none 10000 12000 20000
    (by decide) (by decide) (by decide) (by decide) (by decide) (by decide)

/-- Witness for C4: a handshake missing its gigId leaves the registry as it
was and is rejected with close code 1008. -/
theorem invalid_params_rejected_registry_untouched_witness :
    ∃ reason closeReason : String,
      handleConnection reg1 pMissing 7 =
        (.rejected (.errJson reason) 1008 closeReason, reg1) :=
  invalid_params_rejected_registry_untouched reg1 pMissing 7 (by decide)

/-- Witness for C5: closing socket 1 of user uidA empties its bucket and
removes the userId entry, so no query sees the connection any more. -/
theorem close_removes_conn_no_empty_buckets_witness :
    (∀ c ∈ Registry.allConns (removeConn reg1 uidA 1), c.1 ≠ 1) ∧
    (∀ key : Query, ∀ c ∈ matching (removeConn reg1 uidA 1) key, c.1 ≠ 1) ∧
    (∀ p ∈ removeConn reg1 uidA 1, p.2 ≠ []) :=
  close_removes_conn_no_empty_buckets reg1 uidA 1 (by decide) (by decide) (by decide)

/-- Witness for C6: a message without a text field is rejected with the
format error and nothing is stored, broadcast or closed. -/
theorem missing_text_rejected_no_store_witness :
    processMessageESM 5 [clBuyer] qBuyer [] mNoText =
      ⟨[], some (.errJson "Invalid message format"), none, [], none⟩ :=
  missing_text_rejected_no_store 5 [clBuyer] qBuyer [] mNoText rfl

/-- Witness for C7: a message with the ill-formed gigId zzz but valid
sender and text is rejected and nothing is stored. -/
theorem invalid_gigid_rejected_no_store_witness :
    ∃ reason : String,
      processMessageESM 5 [clBuyer] qBuyer [] mBadGig =
        ⟨[], some (.errJson reason), none, [], none⟩ :=
  invalid_gigid_rejected_no_store 5 [clBuyer] qBuyer [] mBadGig
    (by decide) (by decide) (by decide) (by decide)

/-- Witness for the amended C8 on a concrete accepted message with client
timestamp 7 and server time 5: both variants persist timestamp 7. -/
theorem timestamp_client_or_server_assigned_witness :
    (mkStored mTs7 7 none).timestamp =
      (if truthyInt mTs7.timestamp then mTs7.timestamp.getD 0 else 5) ∧
    mTs7.timestamp = some (mkStored mTs7 7 none).timestamp := by
  constructor
  · exact (timestamp_client_or_server_assigned 5 [] qBuyer [] mTs7
      (mkStored mTs7 7 none)).1 (by decide)
  · exact (timestamp_client_or_server_assigned 5 [] qBuyer [] mTs7
      (mkStored mTs7 7 none)).2 (by decide)

/-- Witness for C9: a message bearing gigId gidB sent over a connection
admitted for gig gidA is persisted under gidB yet delivered to the
audience computed from the admission parameters. -/
theorem audience_from_admission_params_only_witness :
    (processMessageESM 5 [clBuyer, clSeller, clOther] qBuyer [] mOtherGig).recipients =
      audience [clBuyer, clSeller, clOther] qBuyer ∧
    ∃ s : StoredMessage,
      (processMessageESM 5 [clBuyer, clSeller, clOther] qBuyer [] mOtherGig).broadcastPayload =
        some s ∧
      (processMessageESM 5 [clBuyer, clSeller, clOther] qBuyer [] mOtherGig).store =
        [] ++ [s] ∧
      s.gigId = gidB ∧ s.gigId ≠ qBuyer.gigId :=
  audience_from_admission_params_only 5 [clBuyer, clSeller, clOther] qBuyer [] mOtherGig gidB
    rfl (by decide) (by decide)

/-- Witness for C10: two keyed-variant messages from the same sender with
client timestamp 777 and different texts; the second is silently dropped. -/
theorem keyed_dedup_ignores_text_witness :
    mkMessageId 5 ⟨some gidA, some uidA, some "world", none, some 777, none⟩ =
      uidA ++ ":" ++ toString (777 : Int) ∧
    processMessageKeyed 5 [clBuyer] qBuyer
        (processMessageKeyed 5 [clBuyer] qBuyer []
          ⟨some gidA, some uidA, some "hello", none, some 777, none⟩).store
        ⟨some gidA, some uidA, some "world", none, some 777, none⟩ =
      ⟨(processMessageKeyed 5 [clBuyer] qBuyer []
          ⟨some gidA, some uidA, some "hello", none, some 777, none⟩).store,
        none, none, [], none⟩ :=
  keyed_dedup_ignores_text 5 [clBuyer] qBuyer [] gidA gidA uidA "hello" "world"
    none none 777
    (by decide) (by decide) (by decide) (by decide) (by decide)

end Chat
